import Mathlib

/-!
Shallow embedding of `src/router.js` (Vihrogon/deno-helpers), a minimal HTTP
request router for `Deno.serve()`.

The repository's own logic (the `Router` class: `#add`, `#parseParams`,
`#parseBody`, the `get`/`post`/`patch`/`delete`/`static` registration methods
and the `route` dispatch loop) is translated directly from the source.
Platform builtins that the source calls (`URLPattern`, `JSON.parse`,
`Deno.open`, WHATWG `URL` parsing of the request URL) are not part of the
repository; they are modelled from the specification's description of them,
each marked `Modelled from the spec:` in its doc comment.  `Deno.open` is kept
abstract as a function parameter.
-/

set_option autoImplicit false

namespace DenoRouter

/-- Modelled from the spec: the request URL, which the platform parses into
components; the pattern matching in this router only consults the pathname
(patterns are built with `new URLPattern(\x7b pathname \x7d)`, every other
component defaulting to a wildcard). -/
structure Url where
  pathname : String
  search : String
deriving DecidableEq, Repr

/-- The incoming request as the router reads it: `req.method`, `req.url`, and
the body text obtained by `await req.text()` inside `#parseBody`. -/
structure Request where
  method : String
  url : Url
  bodyText : String
deriving DecidableEq, Repr

/-- Modelled from the spec: a JSON value, the result type of the platform's
`JSON.parse` used by `#parseBody`. -/
inductive Json where
  | null
  | bool (b : Bool)
  | num (n : Int)
  | str (s : String)
  | arr (elems : List Json)
  | obj (fields : List (String × Json))

/-- A response value: `new Response(body, \x7b status, headers \x7d)`.  The
body is `none` for `new Response(null, ...)`; a streamed file body is its
text content.  Status defaults to 200 when the source omits it. -/
structure Response where
  status : Nat
  body : Option String
  headers : List (String × String)
deriving DecidableEq, Repr

/-- The `params` object built by `#parseParams`: optional `pathname` and
`search` members, each a group-name-to-captured-string mapping; `none` means
the member is absent from the object. -/
structure Params where
  pathname : Option (List (String × String))
  search : Option (List (String × String))
deriving DecidableEq, Repr

/-- The request context `\x7b req, params, body \x7d` passed to a handler. -/
structure Ctx where
  req : Request
  params : Params
  body : Json

/-- A user-supplied handler.  `none` models the handler throwing or its
returned promise rejecting; `some resp` models it completing with `resp`. -/
abbrev Handler : Type := Ctx → Option Response

/-- One method's route table: a JS `Map` from pattern string to handler,
represented as an insertion-ordered association list with unique keys. -/
abbrev RouteList : Type := List (String × Handler)

/-- The private `#routes` field: a JS `Map` from method name to that method's
pattern map, initialised with exactly the four supported methods. -/
abbrev Router : Type := List (String × RouteList)

/-- `#routes`' initial value: the four supported methods, each empty. -/
def Router.init : Router :=
  [("GET", []), ("POST", []), ("PATCH", []), ("DELETE", [])]

/-- JS `Map.get(k)`: first entry whose key equals `k`, if any. -/
def getValue {α : Type} (l : List (String × α)) (k : String) : Option α :=
  (l.find? (fun e => e.1 == k)).map (·.2)

/-- JS `Map.has(k)`. -/
def hasKey {α : Type} (l : List (String × α)) (k : String) : Bool :=
  l.any (fun e => e.1 == k)

/-- JS `Map.set(k, v)`: replace the value in place when the key is present
(the entry keeps its position), otherwise append a new entry. -/
def mapSet {α : Type} (l : List (String × α)) (k : String) (v : α) :
    List (String × α) :=
  if l.any (fun e => e.1 == k) then
    l.map (fun e => if e.1 == k then (k, v) else e)
  else
    l ++ [(k, v)]

/-- `this.#routes.get(method)` as used by `route` and `#add`. -/
def routesGet (r : Router) (m : String) : Option RouteList :=
  (r.find? (fun e => e.1 == m)).map (·.2)

/-- A JS argument position that the source inspects with `typeof`: the
`pathname` parameter of `#add` may be handed a non-string value. -/
inductive JsArg where
  | str (s : String)
  | nonString

/-- `Router.#add(method, pathname, handler)`: throws `Error("Invalid
pathname")` when `pathname` is not a string or is the empty string; otherwise
`this.#routes.get(method)?.set(pathname, handler)` — a silent no-op when
`method` is not one of the four keys.  The thrown error is the `Except.error`
case. -/
def add (r : Router) (method : String) (pathname : JsArg) (handler : Handler) :
    Except String Router :=
  match pathname with
  | .nonString => .error "Invalid pathname"
  | .str s =>
    if s == "" then .error "Invalid pathname"
    else .ok (r.map (fun e => if e.1 == method then (e.1, mapSet e.2 s handler) else e))

/-- The state transition of a call to `#add` seen from the caller: on a throw
the `#routes` field is left unchanged and the error message is surfaced. -/
def runAdd (r : Router) (method : String) (pathname : JsArg) (handler : Handler) :
    Router × Option String :=
  match add r method pathname handler with
  | .ok r' => (r', none)
  | .error e => (r, some e)

/-- `router.get(pathname, handler)`. -/
def Router.get (r : Router) (pathname : JsArg) (handler : Handler) :
    Except String Router :=
  add r "GET" pathname handler

/-- `router.post(pathname, handler)`. -/
def Router.post (r : Router) (pathname : JsArg) (handler : Handler) :
    Except String Router :=
  add r "POST" pathname handler

/-- `router.patch(pathname, handler)`. -/
def Router.patch (r : Router) (pathname : JsArg) (handler : Handler) :
    Except String Router :=
  add r "PATCH" pathname handler

/-- `router.delete(pathname, handler)`. -/
def Router.delete (r : Router) (pathname : JsArg) (handler : Handler) :
    Except String Router :=
  add r "DELETE" pathname handler

/-! ### URLPattern, modelled from the spec

The spec's glossary: a pattern is "a URL-template string with optional named
segments (`:name`) and an optional trailing wildcard capture (`:name*`)";
step 3 of the dispatch algorithm: named segments bind to
`params.pathname.<name>`, a trailing `:name*` binds the remainder of the
path.  The patterns of this router are built as
`new URLPattern(\x7b pathname \x7d)`, so only the pathname component is
constrained and the search component yields no named captures. -/

/-- Modelled from the spec: one segment of a pattern template. -/
inductive PatSeg where
  | lit (s : String)
  | param (name : String)
  | wildcard (name : String)
deriving DecidableEq, Repr

/-- Split a character list on `/`, keeping empty pieces (the behaviour of
splitting a string on a single-character separator). -/
def splitSlash : List Char → List Char → List (List Char)
  | [], acc => [acc.reverse]
  | c :: cs, acc =>
    if c = '/' then acc.reverse :: splitSlash cs []
    else splitSlash cs (c :: acc)

/-- Path segments of a pathname string: split on `/`, dropping the empty
segment before a leading slash. -/
def segsOf (s : String) : List String :=
  match (splitSlash s.data []).map String.mk with
  | "" :: rest => rest
  | l => l

/-- `s` ends with `suff`. -/
def strEndsWith (s suff : String) : Bool :=
  suff.data.isSuffixOf s.data

/-- Modelled from the spec: read one template segment — `:name*` is a named
trailing wildcard, `:name` a named segment, anything else a literal. -/
def parseSeg (s : String) : PatSeg :=
  match s.data with
  | ':' :: rest =>
    if rest.getLast? = some '*' then .wildcard (String.mk rest.dropLast)
    else .param (String.mk rest)
  | _ => .lit s

/-- Modelled from the spec: compile a pattern string into its segments
(`new URLPattern(\x7b pathname \x7d)`). -/
def parsePattern (pattern : String) : List PatSeg :=
  (segsOf pattern).map parseSeg

/-- Modelled from the spec: match template segments against path segments.
Literals must coincide, `:name` captures exactly one segment verbatim, and a
trailing `:name*` captures the remainder of the path (possibly empty). -/
def matchSegs : List PatSeg → List String → Option (List (String × String))
  | [], [] => some []
  | [.wildcard n], rest => some [(n, String.intercalate "/" rest)]
  | .lit s :: ps, u :: us => if u == s then matchSegs ps us else none
  | .param n :: ps, u :: us => (matchSegs ps us).map (fun g => (n, u) :: g)
  | _, _ => none

/-- The result of `url.exec(reqUrl)`: the named capture groups of the
pathname and search components.  Patterns here never constrain the search
component, so its groups are empty. -/
structure ExecResult where
  pathnameGroups : List (String × String)
  searchGroups : List (String × String)
deriving DecidableEq, Repr

/-- Modelled from the spec: `url.exec(reqUrl)` for `url = new
URLPattern(\x7b pathname \x7d)` — `some` exactly when the request URL's
pathname matches the template. -/
def urlPatternExec (pattern : String) (u : Url) : Option ExecResult :=
  (matchSegs (parsePattern pattern) (segsOf u.pathname)).map
    (fun g => { pathnameGroups := g, searchGroups := [] })

/-- Modelled from the spec: `url.test(reqUrl)`, true exactly when `exec`
produces a match. -/
def urlPatternTest (pattern : String) (u : Url) : Bool :=
  (urlPatternExec pattern u).isSome

/-- `Router.#parseParams(url, reqUrl)`: reads the pathname and search groups
of `url.exec(reqUrl)` and stores each under `params` only when the group
object has at least one key.  `route` only calls it after `url.test`
succeeded, so the `exec` result is present at every call site. -/
def parseParams (pattern : String) (u : Url) : Params :=
  let pathname := ((urlPatternExec pattern u).map (·.pathnameGroups)).getD []
  let search := ((urlPatternExec pattern u).map (·.searchGroups)).getD []
  { pathname := if pathname.isEmpty then none else some pathname
    search := if search.isEmpty then none else some search }

/-! ### JSON.parse, modelled from the spec

The spec: "the raw body text is parsed as JSON; if parsing fails for any
reason, `body` is `null`".  A fuel-indexed recursive-descent parser for the
JSON subset the spec exercises (literals, integers, strings without escape
sequences, arrays, objects); `jsonParse` returning `none` is the platform
`JSON.parse` throwing. -/

/-- Skip JSON whitespace. -/
def skipWs : List Char → List Char
  | c :: cs =>
    if c = ' ' ∨ c = '\n' ∨ c = '\t' ∨ c = '\r' then skipWs cs else c :: cs
  | [] => []

/-- Modelled from the spec: the characters of a JSON string literal after the
opening quote, up to the closing quote. -/
def parseStrChars : List Char → Option (List Char × List Char)
  | [] => none
  | c :: cs =>
    if c = '"' then some ([], cs)
    else (parseStrChars cs).map (fun p => (c :: p.1, p.2))

/-- Decimal digits to their numeric value. -/
def digitsToNat (ds : List Char) : Nat :=
  ds.foldl (fun acc c => acc * 10 + (c.toNat - 48)) 0

mutual

/-- Modelled from the spec: parse one JSON value, returning it with the
remaining input.  The first argument is fuel bounding recursion depth. -/
def parseVal : Nat → List Char → Option (Json × List Char)
  | 0, _ => none
  | fuel + 1, input =>
    match skipWs input with
    | [] => none
    | c :: cs =>
      if c = 'n' then
        if ['u', 'l', 'l'].isPrefixOf cs then some (.null, cs.drop 3) else none
      else if c = 't' then
        if ['r', 'u', 'e'].isPrefixOf cs then some (.bool true, cs.drop 3) else none
      else if c = 'f' then
        if ['a', 'l', 's', 'e'].isPrefixOf cs then some (.bool false, cs.drop 4) else none
      else if c = '"' then
        (parseStrChars cs).map (fun p => (.str (String.mk p.1), p.2))
      else if c = '[' then
        match skipWs cs with
        | ']' :: rest => some (.arr [], rest)
        | rest => (parseArrElems fuel rest).map (fun p => (.arr p.1, p.2))
      else if c = '\x7b' then
        match skipWs cs with
        | '\x7d' :: rest => some (.obj [], rest)
        | rest => (parseObjFields fuel rest).map (fun p => (.obj p.1, p.2))
      else
        let neg := c = '-'
        let rest := if neg then cs else c :: cs
        match rest.span Char.isDigit with
        | ([], _) => none
        | (ds, rest') =>
          some (.num (if neg then -(digitsToNat ds : Int) else (digitsToNat ds : Int)), rest')

/-- Modelled from the spec: parse `value (, value)* ]`, the non-empty tail of
a JSON array. -/
def parseArrElems : Nat → List Char → Option (List Json × List Char)
  | 0, _ => none
  | fuel + 1, input =>
    match parseVal fuel input with
    | none => none
    | some (v, rest) =>
      match skipWs rest with
      | ']' :: r2 => some ([v], r2)
      | ',' :: r2 => (parseArrElems fuel r2).map (fun p => (v :: p.1, p.2))
      | _ => none

/-- Modelled from the spec: parse `"key": value (, "key": value)* \x7d`, the
non-empty tail of a JSON object. -/
def parseObjFields : Nat → List Char → Option (List (String × Json) × List Char)
  | 0, _ => none
  | fuel + 1, input =>
    match skipWs input with
    | '"' :: cs =>
      match parseStrChars cs with
      | none => none
      | some (key, rest) =>
        match skipWs rest with
        | ':' :: r2 =>
          match parseVal fuel r2 with
          | none => none
          | some (v, r3) =>
            match skipWs r3 with
            | '\x7d' :: r4 => some ([(String.mk key, v)], r4)
            | ',' :: r4 =>
              (parseObjFields fuel r4).map (fun p => ((String.mk key, v) :: p.1, p.2))
            | _ => none
        | _ => none
    | _ => none

end

/-- Modelled from the spec: the platform `JSON.parse` — `some` on a complete
parse of the whole text, `none` (a throw) otherwise. -/
def jsonParse (s : String) : Option Json :=
  match parseVal (s.length + 1) s.data with
  | some (v, rest) => if skipWs rest = [] then some v else none
  | none => none

/-- `Router.#parseBody(req)`: `JSON.parse(await req.text())`, with every
failure caught and turned into `null`. -/
def parseBody (req : Request) : Json :=
  match jsonParse req.bodyText with
  | some v => v
  | none => Json.null

/-! ### The static-file handler and the dispatch loop -/

/-- The request context a matched pattern produces inside `route`:
`\x7b req, params, body \x7d` with `params = #parseParams(url, req.url)` and
`body = await #parseBody(req)`. -/
def mkCtx (req : Request) (pattern : String) : Ctx :=
  { req := req, params := parseParams pattern req.url, body := parseBody req }

/-- The handler registered by `Router.static`: its whole body sits in a
`try`, so any failure — `Deno.open` rejecting, or the captured path being
absent — produces `new Response("Not Found", \x7b status: 404 \x7d)`.  On
success it streams the file (`fs` is `Deno.open` followed by reading
`file.readable`, kept abstract: `none` models any open failure) with status
200 and, when the captured path ends in `.js`, a
`content-type: text/javascript` header. -/
def staticHandler (fs : String → Option String) (foldername : String) : Handler :=
  fun ctx =>
    some (
      match ctx.params.pathname.bind (fun g => getValue g "path") with
      | none => { status := 404, body := some "Not Found", headers := [] }
      | some p =>
        match fs ("./" ++ foldername ++ "/" ++ p) with
        | none => { status := 404, body := some "Not Found", headers := [] }
        | some data =>
          { status := 200, body := some data
            headers :=
              if strEndsWith p ".js" then [("content-type", "text/javascript")] else [] })

/-- `router.static(pathname, foldername)`: registers the static handler as a
GET route at `pathname + "/:path*"`.  The pattern always ends in `"/:path*"`,
so it is a non-empty string and `#add` cannot throw; the error branch is
unreachable. -/
def Router.static (fs : String → Option String) (r : Router)
    (pathname : String) (foldername : String) : Router :=
  match add r "GET" (.str (pathname ++ "/:path*")) (staticHandler fs foldername) with
  | .ok r' => r'
  | .error _ => r

/-- The `for (const [pathname, handler] of ...)` loop of `Router.route`,
threading the pending `status`: a non-matching pattern leaves it unchanged; a
matching pattern's handler either returns its response immediately or, on a
throw, sets `status = 500` and the loop continues; an exhausted loop returns
`new Response(null, \x7b status \x7d)`. -/
def routeLoop (req : Request) : List (String × Handler) → Nat → Response
  | [], status => { status := status, body := none, headers := [] }
  | e :: rest, status =>
    if urlPatternTest e.1 req.url then
      match e.2 (mkCtx req e.1) with
      | some resp => resp
      | none => routeLoop req rest 500
    else
      routeLoop req rest status

/-- `Router.route(req)`: `status` starts at 405; when `#routes` has the
request's method it becomes 404 and the method's patterns are scanned in
registration order. -/
def route (r : Router) (req : Request) : Response :=
  match routesGet r req.method with
  | some lst => routeLoop req lst 404
  | none => { status := 405, body := none, headers := [] }

/-- The fixed-key invariant of the private `#routes` map: exactly the four
supported methods, in construction order. -/
def wf (r : Router) : Prop :=
  r.map Prod.fst = ["GET", "POST", "PATCH", "DELETE"]

/-! ### Helper lemmas about the dispatch loop and the route table -/

theorem routeLoop_append_of_nomatch (req : Request)
    (pre rest : List (String × Handler)) (st : Nat)
    (h : ∀ e ∈ pre, urlPatternTest e.1 req.url = false) :
    routeLoop req (pre ++ rest) st = routeLoop req rest st := by
  induction pre with
  | nil => rfl
  | cons a pre ih =>
    have ha : urlPatternTest a.1 req.url = false := h a (by simp)
    simp only [List.cons_append, routeLoop, ha, Bool.false_eq_true, if_false]
    exact ih (fun e he => h e (by simp [he]))

theorem routeLoop_all_fail (req : Request) (l : List (String × Handler)) (st : Nat)
    (h : ∀ e ∈ l, urlPatternTest e.1 req.url = true → e.2 (mkCtx req e.1) = none) :
    routeLoop req l st =
      { status := if l.any (fun e => urlPatternTest e.1 req.url) then 500 else st
        body := none, headers := [] } := by
  induction l generalizing st with
  | nil => simp [routeLoop]
  | cons a l ih =>
    have hl : ∀ e ∈ l, urlPatternTest e.1 req.url = true → e.2 (mkCtx req e.1) = none :=
      fun e he hm => h e (List.mem_cons_of_mem a he) hm
    by_cases ha : urlPatternTest a.1 req.url = true
    · have hfail := h a (List.mem_cons_self a l) ha
      have hstep : routeLoop req (a :: l) st = routeLoop req l 500 := by
        simp [routeLoop, ha, hfail]
      rw [hstep, ih 500 hl]
      simp [List.any_cons, ha]
    · have ha' : urlPatternTest a.1 req.url = false := by simpa using ha
      have hstep : routeLoop req (a :: l) st = routeLoop req l st := by
        simp [routeLoop, ha']
      rw [hstep, ih st hl, List.any_cons, ha', Bool.false_or]

theorem routeLoop_spec (req : Request) (l : List (String × Handler)) (st : Nat) :
    (∃ e ∈ l, ∃ resp, e.2 (mkCtx req e.1) = some resp ∧ routeLoop req l st = resp)
    ∨ routeLoop req l st = { status := st, body := none, headers := [] }
    ∨ routeLoop req l st = { status := 500, body := none, headers := [] } := by
  induction l generalizing st with
  | nil => right; left; rfl
  | cons a l ih =>
    by_cases ha : urlPatternTest a.1 req.url = true
    · cases hh : a.2 (mkCtx req a.1) with
      | some resp =>
        left
        exact ⟨a, by simp, resp, hh, by simp [routeLoop, ha, hh]⟩
      | none =>
        have heq : routeLoop req (a :: l) st = routeLoop req l 500 := by
          simp [routeLoop, ha, hh]
        rcases ih 500 with ⟨e, he, resp, hr, hl⟩ | hl | hl
        · left; exact ⟨e, by simp [he], resp, hr, heq.trans hl⟩
        · right; right; exact heq.trans hl
        · right; right; exact heq.trans hl
    · have ha' : urlPatternTest a.1 req.url = false := by simpa using ha
      have heq : routeLoop req (a :: l) st = routeLoop req l st := by
        simp [routeLoop, ha']
      rcases ih st with ⟨e, he, resp, hr, hl⟩ | hl | hl
      · left; exact ⟨e, by simp [he], resp, hr, heq.trans hl⟩
      · right; left; exact heq.trans hl
      · right; right; exact heq.trans hl

/-- The common first-match computation of `route`: skipping the non-matching
prefix, the first matching pattern's successfully returned response is the
final result. -/
theorem route_of_first_match (r : Router) (req : Request)
    (pre post : List (String × Handler)) (p : String) (h : Handler) (resp : Response)
    (hget : routesGet r req.method = some (pre ++ (p, h) :: post))
    (hpre : ∀ e ∈ pre, urlPatternTest e.1 req.url = false)
    (hp : urlPatternTest p req.url = true)
    (hresp : h (mkCtx req p) = some resp) :
    route r req = resp := by
  simp only [route, hget]
  rw [routeLoop_append_of_nomatch req pre _ 404 hpre]
  simp [routeLoop, hp, hresp]

theorem wf_routesGet_none (r : Router) (hwf : wf r) (m : String)
    (hm : m ∉ (["GET", "POST", "PATCH", "DELETE"] : List String)) :
    routesGet r m = none := by
  unfold routesGet
  rw [List.find?_eq_none.mpr]
  · rfl
  · intro e he
    have hmem : e.1 ∈ r.map Prod.fst := List.mem_map_of_mem _ he
    rw [hwf] at hmem
    simp only [beq_iff_eq]
    intro hcontra
    exact hm (hcontra ▸ hmem)

theorem wf_routesGet_exists (r : Router) (hwf : wf r) (m : String)
    (hm : m ∈ (["GET", "POST", "PATCH", "DELETE"] : List String)) :
    ∃ lst, routesGet r m = some lst := by
  rw [← hwf] at hm
  obtain ⟨e, he, hfst⟩ := List.mem_map.mp hm
  have hfind : ∃ x, r.find? (fun e => e.1 == m) = some x := by
    rw [← Option.isSome_iff_exists]
    rw [List.find?_isSome]
    exact ⟨e, he, by simp [hfst]⟩
  obtain ⟨x, hx⟩ := hfind
  exact ⟨x.2, by simp [routesGet, hx]⟩

theorem routesGet_update_same (r : Router) (m : String) (f : RouteList → RouteList) :
    routesGet (r.map (fun e => if e.1 == m then (e.1, f e.2) else e)) m =
      (routesGet r m).map f := by
  induction r with
  | nil => rfl
  | cons a r ih =>
    by_cases ha : a.1 = m
    · simp [routesGet, List.find?_cons, ha]
    · have ha' : (a.1 == m) = false := by simp [ha]
      simp only [List.map_cons, ha', Bool.false_eq_true, if_false]
      simpa [routesGet, List.find?_cons, ha'] using ih

theorem routesGet_update_other (r : Router) (m m' : String) (f : RouteList → RouteList)
    (hne : m' ≠ m) :
    routesGet (r.map (fun e => if e.1 == m then (e.1, f e.2) else e)) m' =
      routesGet r m' := by
  induction r with
  | nil => rfl
  | cons a r ih =>
    rw [List.map_cons]
    by_cases hm' : a.1 = m'
    · have ham : ¬(a.1 = m) := fun hc => hne (hm'.symm.trans hc)
      rw [show (if a.1 == m then (a.1, f a.2) else a) = a from by simp [ham]]
      unfold routesGet
      rw [List.find?_cons_of_pos _ (by simp [hm']),
        List.find?_cons_of_pos _ (by simp [hm'])]
    · have hkey : (if a.1 == m then (a.1, f a.2) else a).1 = a.1 := by
        by_cases hc : a.1 = m <;> simp [hc]
      unfold routesGet at ih ⊢
      rw [List.find?_cons_of_neg _ (by rw [hkey]; simp [hm']),
        List.find?_cons_of_neg _ (by simp [hm'])]
      exact ih

theorem mapSet_keys {α : Type} (l : List (String × α)) (k : String) (v : α)
    (h : l.any (fun e => e.1 == k) = true) :
    (mapSet l k v).map Prod.fst = l.map Prod.fst := by
  simp only [mapSet, h, if_true, List.map_map]
  apply List.map_congr_left
  intro e he
  by_cases hk : e.1 = k <;> simp [hk]

theorem find?_mapReplace {α : Type} (l : List (String × α)) (k : String) (v : α)
    (h : l.any (fun e => e.1 == k) = true) :
    (l.map (fun e => if e.1 == k then (k, v) else e)).find? (fun e => e.1 == k) =
      some (k, v) := by
  induction l with
  | nil => simp at h
  | cons a l ih =>
    rw [List.map_cons]
    by_cases ha : a.1 = k
    · rw [show (if a.1 == k then (k, v) else a) = (k, v) from by simp [ha]]
      exact List.find?_cons_of_pos _ (by simp)
    · rw [show (if a.1 == k then (k, v) else a) = a from by simp [ha]]
      rw [List.find?_cons_of_neg _ (by simp [ha])]
      apply ih
      rcases List.any_eq_true.mp h with ⟨x, hx, hpx⟩
      rcases List.mem_cons.mp hx with rfl | hx'
      · exact absurd (by simpa using hpx) ha
      · exact List.any_eq_true.mpr ⟨x, hx', hpx⟩

theorem getValue_mapSet {α : Type} (l : List (String × α)) (k : String) (v : α) :
    getValue (mapSet l k v) k = some v := by
  by_cases h : l.any (fun e => e.1 == k) = true
  · unfold mapSet getValue
    rw [if_pos h, find?_mapReplace l k v h]
    rfl
  · have h' : l.find? (fun e => e.1 == k) = none :=
      List.find?_eq_none.mpr (fun x hx hpx => h (List.any_eq_true.mpr ⟨x, hx, hpx⟩))
    unfold mapSet getValue
    rw [if_neg h, List.find?_append, h', Option.none_or,
      List.find?_cons_of_pos _ (by simp)]
    rfl

theorem static_pattern_ne_empty (s : String) : ((s ++ "/:path*") == "") = false := by
  rw [beq_eq_false_iff_ne]
  intro h
  have hlen := congrArg String.length h
  rw [String.length_append] at hlen
  have h7 : ("/:path*" : String).length = 7 := rfl
  have h0 : ("" : String).length = 0 := rfl
  omega

theorem static_eq_add (fs : String → Option String) (r : Router) (mount folder : String) :
    add r "GET" (.str (mount ++ "/:path*")) (staticHandler fs folder) =
      .ok (Router.static fs r mount folder) := by
  simp [add, Router.static, static_pattern_ne_empty]

theorem static_unfold (fs : String → Option String) (r : Router) (mount folder : String) :
    Router.static fs r mount folder =
      r.map (fun e =>
        if e.1 == "GET" then
          (e.1, mapSet e.2 (mount ++ "/:path*") (staticHandler fs folder))
        else e) := by
  have h := static_eq_add fs r mount folder
  have hc : ¬(((mount ++ "/:path*") == "") = true) := by
    rw [static_pattern_ne_empty]
    exact Bool.false_ne_true
  have h2 : add r "GET" (.str (mount ++ "/:path*")) (staticHandler fs folder) =
      .ok (r.map (fun e =>
        if e.1 == "GET" then
          (e.1, mapSet e.2 (mount ++ "/:path*") (staticHandler fs folder))
        else e)) := by
    simp only [add]
    rw [if_neg hc]
  have h3 := h2.symm.trans h
  injection h3 with h4
  exact h4.symm

/-! ### The claims -/

/-- C1: for every route table and every request whose method is supported,
dispatch tests patterns in registration order and, on the first pattern that
matches, if the handler completes normally its response value is returned
verbatim as the final result; no later-registered pattern is tried after a
matching handler returns successfully (the conclusion holds for every
`post`). -/
theorem route_first_match_returns_response (r : Router) (req : Request)
    (pre post : List (String × Handler)) (p : String) (h : Handler) (resp : Response)
    (hget : routesGet r req.method = some (pre ++ (p, h) :: post))
    (hpre : ∀ e ∈ pre, urlPatternTest e.1 req.url = false)
    (hp : urlPatternTest p req.url = true)
    (hresp : h (mkCtx req p) = some resp) :
    route r req = resp :=
  route_of_first_match r req pre post p h resp hget hpre hp hresp

/-- C2: for every request whose method is supported, if a matching pattern's
handler fails, dispatch records status 500 and continues the loop against the
remaining patterns of the same method in registration order rather than
returning immediately; status 500 is the final result only when no subsequent
matching handler returns a response before the loop is exhausted. -/
theorem handler_failure_records_500_and_continues (r : Router) (req : Request)
    (pre post : List (String × Handler)) (p : String) (h : Handler)
    (hget : routesGet r req.method = some (pre ++ (p, h) :: post))
    (hpre : ∀ e ∈ pre, urlPatternTest e.1 req.url = false)
    (hp : urlPatternTest p req.url = true)
    (hfail : h (mkCtx req p) = none) :
    route r req = routeLoop req post 500
    ∧ ((∀ e ∈ post, urlPatternTest e.1 req.url = true → e.2 (mkCtx req e.1) = none) →
        route r req = { status := 500, body := none, headers := [] }) := by
  have h1 : route r req = routeLoop req post 500 := by
    simp only [route, hget]
    rw [routeLoop_append_of_nomatch req pre _ 404 hpre]
    simp [routeLoop, hp, hfail]
  refine ⟨h1, fun hall => ?_⟩
  rw [h1, routeLoop_all_fail req post 500 hall]
  simp

/-- C3: for every request whose method is not in the set
\x7bGET, POST, PATCH, DELETE\x7d, dispatch returns a bodyless response with
status 405, regardless of the request's URL and regardless of what routes are
registered. -/
theorem unsupported_method_yields_405 (r : Router) (req : Request)
    (hwf : wf r)
    (hm : req.method ∉ (["GET", "POST", "PATCH", "DELETE"] : List String)) :
    route r req = { status := 405, body := none, headers := [] } := by
  simp [route, wf_routesGet_none r hwf req.method hm]

/-- C4: for every request whose method is in \x7bGET, POST, PATCH, DELETE\x7d
but whose URL matches none of the patterns registered for that method
(including when no routes are registered at all), dispatch returns a response
with empty body and status 404. -/
theorem no_match_yields_404 (r : Router) (req : Request)
    (hwf : wf r)
    (hm : req.method ∈ (["GET", "POST", "PATCH", "DELETE"] : List String))
    (hall : ∀ lst, routesGet r req.method = some lst →
      ∀ e ∈ lst, urlPatternTest e.1 req.url = false) :
    route r req = { status := 404, body := none, headers := [] } := by
  obtain ⟨lst, hlst⟩ := wf_routesGet_exists r hwf req.method hm
  have hfalse := hall lst hlst
  have hany : lst.any (fun e => urlPatternTest e.1 req.url) = false := by
    rw [List.any_eq_false]
    intro e he
    simp [hfalse e he]
  simp only [route, hlst]
  rw [routeLoop_all_fail req lst 404
    (fun e he hme => absurd hme (by simp [hfalse e he])), hany]
  rfl

/-- C5: for every method and every handler, calling `#add` with a pattern
that is the empty string or not a string raises the `Invalid pathname` error
synchronously and the route table is left unchanged; this is the only
validation performed at registration — any non-empty string pattern is
accepted, whatever its syntax and whatever the handler. -/
theorem register_rejects_only_invalid_pathname (r : Router) (m : String)
    (h h' : Handler) (s : String) (hs : s ≠ "") :
    runAdd r m (.str "") h = (r, some "Invalid pathname")
    ∧ runAdd r m .nonString h = (r, some "Invalid pathname")
    ∧ ∃ r', add r m (.str s) h' = .ok r' := by
  have hc : ((s == "") = true) → False := fun hc => hs (by simpa using hc)
  refine ⟨rfl, rfl,
    ⟨r.map (fun e => if e.1 == m then (e.1, mapSet e.2 s h') else e), ?_⟩⟩
  simp only [add]
  rw [if_neg hc]

/-- C6: for every route table and every request, dispatch always completes
with a response value: a matched handler's response, or a bodyless response
whose status is 405, 404 or 500 (`route` is a total function of the table and
the request). -/
theorem route_always_produces_response (r : Router) (req : Request) :
    (∃ e ∈ (routesGet r req.method).getD [], ∃ resp,
        e.2 (mkCtx req e.1) = some resp ∧ route r req = resp)
    ∨ route r req = { status := 405, body := none, headers := [] }
    ∨ route r req = { status := 404, body := none, headers := [] }
    ∨ route r req = { status := 500, body := none, headers := [] } := by
  cases hg : routesGet r req.method with
  | none =>
    right; left
    simp [route, hg]
  | some lst =>
    rcases routeLoop_spec req lst 404 with ⟨e, he, resp, hr, hl⟩ | hl | hl
    · left
      exact ⟨e, by simp [hg, he], resp, hr, by simp [route, hg, hl]⟩
    · right; right; left
      simp [route, hg, hl]
    · right; right; right
      simp [route, hg, hl]

/-- C7: when a pattern with named path segments matches a request URL, each
named segment binds `params.pathname.<name>` to the exact matched substring
(pattern `/test/:id` against path `/test/123` yields
`params.pathname.id = "123"`); the `pathname` and `search` members are each
omitted from `params` when their capture group is empty, so a pattern with no
captures yields an empty params object. -/
theorem parseParams_captures_and_omits_empty (pat : String) (u : Url)
    (res : ExecResult) (hexec : urlPatternExec pat u = some res) :
    parseParams "/test/:id" { pathname := "/test/123", search := "" } =
      { pathname := some [("id", "123")], search := none }
    ∧ parseParams "/test" { pathname := "/test", search := "" } =
      { pathname := none, search := none }
    ∧ (parseParams pat u).pathname =
        (if res.pathnameGroups.isEmpty then none else some res.pathnameGroups)
    ∧ (parseParams pat u).search =
        (if res.searchGroups.isEmpty then none else some res.searchGroups) := by
  refine ⟨by decide, by decide, ?_, ?_⟩ <;>
    simp [parseParams, hexec]

/-- C8: for every matched request, the body passed to the handler is the
result of parsing the raw request body text as JSON; if parsing fails for any
reason (empty body, non-JSON content, malformed JSON), the body is `null` and
no error is surfaced — dispatch still hands the handler a context and returns
its response.  The last conjunct checks the spec's concrete example
`\x7b"test":"TEST"\x7d`. -/
theorem body_is_parsed_json_or_null (r : Router) (req : Request)
    (pre post : List (String × Handler)) (p : String) (h : Handler)
    (hget : routesGet r req.method = some (pre ++ (p, h) :: post))
    (hpre : ∀ e ∈ pre, urlPatternTest e.1 req.url = false)
    (hp : urlPatternTest p req.url = true) :
    (∀ resp,
      h { req := req, params := parseParams p req.url, body := parseBody req } = some resp →
        route r req = resp)
    ∧ (∀ v, jsonParse req.bodyText = some v → parseBody req = v)
    ∧ (jsonParse req.bodyText = none → parseBody req = Json.null)
    ∧ jsonParse "\x7b\"test\":\"TEST\"\x7d" = some (Json.obj [("test", Json.str "TEST")]) := by
  refine ⟨?_, ?_, ?_, rfl⟩
  · intro resp hresp
    exact route_of_first_match r req pre post p h resp hget hpre hp hresp
  · intro v hv
    simp [parseBody, hv]
  · intro hv
    simp [parseBody, hv]

/-- C9: `static(mount, folder)` registers exactly one GET route at the
pattern `mount ++ "/:path*"` (the GET table gets that single entry set, the
other methods' tables are untouched), and for every request reaching that
handler, if the file at the wildcard-captured relative path under `folder`
cannot be opened for any reason the handler returns status 404 with body
`"Not Found"`; when the captured path ends in `.js`, a successful response
carries the `content-type: text/javascript` header. -/
theorem static_registers_one_get_route_and_serves (fs : String → Option String)
    (r : Router) (mount folder : String) (ctx1 ctx2 : Ctx) (p1 p2 data : String)
    (hcap1 : ctx1.params.pathname.bind (fun g => getValue g "path") = some p1)
    (hfs1 : fs ("./" ++ folder ++ "/" ++ p1) = none)
    (hcap2 : ctx2.params.pathname.bind (fun g => getValue g "path") = some p2)
    (hfs2 : fs ("./" ++ folder ++ "/" ++ p2) = some data)
    (hjs : strEndsWith p2 ".js" = true) :
    add r "GET" (.str (mount ++ "/:path*")) (staticHandler fs folder) =
      .ok (Router.static fs r mount folder)
    ∧ routesGet (Router.static fs r mount folder) "GET" =
        (routesGet r "GET").map
          (fun l => mapSet l (mount ++ "/:path*") (staticHandler fs folder))
    ∧ (∀ m, m ≠ "GET" → routesGet (Router.static fs r mount folder) m = routesGet r m)
    ∧ staticHandler fs folder ctx1 =
        some { status := 404, body := some "Not Found", headers := [] }
    ∧ staticHandler fs folder ctx2 =
        some { status := 200, body := some data
               headers := [("content-type", "text/javascript")] } := by
  refine ⟨static_eq_add fs r mount folder, ?_, ?_, ?_, ?_⟩
  · rw [static_unfold fs r mount folder]
    exact routesGet_update_same r "GET"
      (fun l => mapSet l (mount ++ "/:path*") (staticHandler fs folder))
  · intro m hm
    rw [static_unfold fs r mount folder]
    exact routesGet_update_other r "GET" m
      (fun l => mapSet l (mount ++ "/:path*") (staticHandler fs folder)) hm
  · simp [staticHandler, hcap1, hfs1]
  · simp [staticHandler, hcap2, hfs2, hjs]

/-- C10: for every method, re-registering a pattern that is already present
replaces its handler while leaving the pattern's position in the method's
iteration order unchanged (the key sequence is identical, the entry is not
moved to the end), and a registration for one method never modifies the
table of any other method. -/
theorem reregister_replaces_in_place_and_is_isolated (r r' : Router)
    (m m' s : String) (h : Handler) (lst : RouteList)
    (hadd : add r m (.str s) h = .ok r')
    (hlst : routesGet r m = some lst)
    (hmem : lst.any (fun e => e.1 == s) = true)
    (hne : m' ≠ m) :
    (∃ lst', routesGet r' m = some lst'
        ∧ lst'.map Prod.fst = lst.map Prod.fst
        ∧ getValue lst' s = some h)
    ∧ routesGet r' m' = routesGet r m' := by
  have hr' : r' = r.map (fun e => if e.1 == m then (e.1, mapSet e.2 s h) else e) := by
    rcases hs : (s == "") with hfalse | htrue
    · rw [add, if_neg (by simp [hs])] at hadd
      injection hadd with h4
      exact h4.symm
    · rw [add, if_pos (by simp [hs])] at hadd
      cases hadd
  subst hr'
  constructor
  · refine ⟨mapSet lst s h, ?_, mapSet_keys lst s h hmem, getValue_mapSet lst s h⟩
    have h5 := routesGet_update_same r m (fun l => mapSet l s h)
    rw [hlst] at h5
    simpa using h5
  · exact routesGet_update_other r m m'
      (fun l => mapSet l s h) hne

/-! ### Concrete witnesses -/

/-- A handler that always succeeds with a fixed 200 response. -/
def h200 : Handler := fun _ => some { status := 200, body := some "ok", headers := [] }

/-- A handler that always throws. -/
def hFail : Handler := fun _ => none

def rW1 : Router :=
  [("GET", [("/test/:id", h200)]), ("POST", []), ("PATCH", []), ("DELETE", [])]

def reqW1 : Request := { method := "GET", url := { pathname := "/test/123", search := "" }, bodyText := "" }

def rW2 : Router :=
  [("GET", [("/t/:id", hFail), ("/t/x", hFail)]), ("POST", []), ("PATCH", []), ("DELETE", [])]

def reqW2 : Request := { method := "GET", url := { pathname := "/t/x", search := "" }, bodyText := "" }

def reqW3 : Request := { method := "PUT", url := { pathname := "/test", search := "" }, bodyText := "" }

def reqW4 : Request := { method := "GET", url := { pathname := "/anything", search := "" }, bodyText := "" }

def rW8 : Router :=
  [("GET", []), ("POST", [("/test", h200)]), ("PATCH", []), ("DELETE", [])]

def reqW8 : Request :=
  { method := "POST", url := { pathname := "/test", search := "" }
    bodyText := "\x7b\"test\":\"TEST\"\x7d" }

/-- A concrete filesystem with a single readable file `./pub/app.js`. -/
def fsW : String → Option String :=
  fun s => if s == "./pub/app.js" then some "CODE" else none

def ctxW1 : Ctx :=
  { req := { method := "GET", url := { pathname := "/assets/nope.txt", search := "" }, bodyText := "" }
    params := { pathname := some [("path", "nope.txt")], search := none }
    body := Json.null }

def ctxW2 : Ctx :=
  { req := { method := "GET", url := { pathname := "/assets/app.js", search := "" }, bodyText := "" }
    params := { pathname := some [("path", "app.js")], search := none }
    body := Json.null }

def rW10 : Router :=
  [("GET", [("/a", hFail), ("/b", h200)]), ("POST", []), ("PATCH", []), ("DELETE", [])]

def rW10' : Router :=
  [("GET", [("/a", h200), ("/b", h200)]), ("POST", []), ("PATCH", []), ("DELETE", [])]

/-- Witness for C1 at a concrete router and request. -/
theorem route_first_match_returns_response_witness :
    urlPatternTest "/test/:id" reqW1.url = true
    ∧ route rW1 reqW1 = { status := 200, body := some "ok", headers := [] } :=
  ⟨by decide,
    route_first_match_returns_response rW1 reqW1 [] [] "/test/:id" h200
      { status := 200, body := some "ok", headers := [] }
      rfl (fun e he => absurd he (List.not_mem_nil e)) (by decide) rfl⟩

/-- Witness for C2: both patterns match, both handlers throw, final result is
the bodyless 500 response. -/
theorem handler_failure_records_500_and_continues_witness :
    urlPatternTest "/t/:id" reqW2.url = true
    ∧ route rW2 reqW2 = { status := 500, body := none, headers := [] } :=
  ⟨by decide,
    (handler_failure_records_500_and_continues rW2 reqW2 [] [("/t/x", hFail)] "/t/:id" hFail
      rfl (fun e he => absurd he (List.not_mem_nil e)) (by decide) rfl).2
      (fun e he _ => by
        rcases List.mem_singleton.mp he with rfl
        rfl)⟩

/-- Witness for C3: a `PUT` request against the freshly constructed router. -/
theorem unsupported_method_yields_405_witness :
    wf Router.init
    ∧ reqW3.method ∉ (["GET", "POST", "PATCH", "DELETE"] : List String)
    ∧ route Router.init reqW3 = { status := 405, body := none, headers := [] } :=
  ⟨rfl, by decide,
    unsupported_method_yields_405 Router.init reqW3 rfl (by decide)⟩

/-- Witness for C4: a `GET` request against the empty router. -/
theorem no_match_yields_404_witness :
    wf Router.init
    ∧ reqW4.method ∈ (["GET", "POST", "PATCH", "DELETE"] : List String)
    ∧ route Router.init reqW4 = { status := 404, body := none, headers := [] } :=
  ⟨rfl, by decide,
    no_match_yields_404 Router.init reqW4 rfl (by decide)
      (fun lst hl => by
        rw [show routesGet Router.init reqW4.method = some ([] : RouteList) from rfl] at hl
        injection hl with hl
        subst hl
        intro e he
        exact absurd he (List.not_mem_nil e))⟩

/-- Witness for C5 at pattern `"/x"`. -/
theorem register_rejects_only_invalid_pathname_witness :
    ("/x" : String) ≠ ""
    ∧ (runAdd Router.init "GET" (.str "") h200 = (Router.init, some "Invalid pathname")
      ∧ runAdd Router.init "GET" .nonString h200 = (Router.init, some "Invalid pathname")
      ∧ ∃ r', add Router.init "GET" (.str "/x") h200 = .ok r') :=
  ⟨by decide,
    register_rejects_only_invalid_pathname Router.init "GET" h200 h200 "/x" (by decide)⟩

def uW7 : Url := { pathname := "/test/123", search := "" }

def resW7 : ExecResult := { pathnameGroups := [("id", "123")], searchGroups := [] }

/-- Witness for C7 at pattern `/test/:id` and path `/test/123`. -/
theorem parseParams_captures_and_omits_empty_witness :
    urlPatternExec "/test/:id" uW7 = some resW7
    ∧ (parseParams "/test/:id" { pathname := "/test/123", search := "" } =
        { pathname := some [("id", "123")], search := none }
      ∧ parseParams "/test" { pathname := "/test", search := "" } =
        { pathname := none, search := none }
      ∧ (parseParams "/test/:id" uW7).pathname =
          (if resW7.pathnameGroups.isEmpty then none else some resW7.pathnameGroups)
      ∧ (parseParams "/test/:id" uW7).search =
          (if resW7.searchGroups.isEmpty then none else some resW7.searchGroups)) :=
  ⟨by decide,
    parseParams_captures_and_omits_empty "/test/:id" uW7 resW7 (by decide)⟩

/-- Witness for C8 at a POST route with the spec's example body. -/
theorem body_is_parsed_json_or_null_witness :
    urlPatternTest "/test" reqW8.url = true
    ∧ ((∀ resp,
          h200 { req := reqW8, params := parseParams "/test" reqW8.url, body := parseBody reqW8 } =
            some resp → route rW8 reqW8 = resp)
      ∧ (∀ v, jsonParse reqW8.bodyText = some v → parseBody reqW8 = v)
      ∧ (jsonParse reqW8.bodyText = none → parseBody reqW8 = Json.null)
      ∧ jsonParse "\x7b\"test\":\"TEST\"\x7d" = some (Json.obj [("test", Json.str "TEST")])) :=
  ⟨by decide,
    body_is_parsed_json_or_null rW8 reqW8 [] [] "/test" h200
      rfl (fun e he => absurd he (List.not_mem_nil e)) (by decide)⟩

/-- Witness for C9: a mounted static root over a one-file filesystem, one
context whose captured path is missing and one whose captured `.js` path
opens. -/
theorem static_registers_one_get_route_and_serves_witness :
    fsW "./pub/app.js" = some "CODE"
    ∧ fsW ("./" ++ "pub" ++ "/" ++ "nope.txt") = none
    ∧ (add Router.init "GET" (.str ("/assets" ++ "/:path*")) (staticHandler fsW "pub") =
        .ok (Router.static fsW Router.init "/assets" "pub")
      ∧ routesGet (Router.static fsW Router.init "/assets" "pub") "GET" =
          (routesGet Router.init "GET").map
            (fun l => mapSet l ("/assets" ++ "/:path*") (staticHandler fsW "pub"))
      ∧ (∀ m, m ≠ "GET" →
          routesGet (Router.static fsW Router.init "/assets" "pub") m =
            routesGet Router.init m)
      ∧ staticHandler fsW "pub" ctxW1 =
          some { status := 404, body := some "Not Found", headers := [] }
      ∧ staticHandler fsW "pub" ctxW2 =
          some { status := 200, body := some "CODE"
                 headers := [("content-type", "text/javascript")] }) :=
  ⟨rfl, rfl,
    static_registers_one_get_route_and_serves fsW Router.init "/assets" "pub"
      ctxW1 ctxW2 "nope.txt" "app.js" "CODE" rfl rfl rfl rfl (by decide)⟩

/-- Witness for C10: re-registering `/a` replaces its handler in place and
leaves the POST table untouched. -/
theorem reregister_replaces_in_place_and_is_isolated_witness :
    add rW10 "GET" (.str "/a") h200 = .ok rW10'
    ∧ ((∃ lst', routesGet rW10' "GET" = some lst'
          ∧ lst'.map Prod.fst = ([("/a", hFail), ("/b", h200)] : RouteList).map Prod.fst
          ∧ getValue lst' "/a" = some h200)
      ∧ routesGet rW10' "POST" = routesGet rW10 "POST") :=
  ⟨rfl,
    reregister_replaces_in_place_and_is_isolated rW10 rW10' "GET" "POST" "/a" h200
      [("/a", hFail), ("/b", h200)] rfl rfl (by decide) (by decide)⟩

end DenoRouter
